import Mathlib

/-!
Verification development for the qtip SAM-parsing core (`src/qtip_parse.cpp`).

The C++ code is shallowly embedded: C strings become `List Char`, the
run-length lists (`EList<int>` / `EList<char>` walked in lockstep) become
`List (Char × Nat)`, the `EList<OpRunOffset>` produced by `mdz_to_list`
becomes `List OpRunOffset`, and every `assert` or `throw 1` that aborts the
run becomes `Except.error ()` (the spec's `FormatError` taxonomy).  Machine
integers are `Nat`/`Int`; `% 2^64` is inserted where `size_t` wrap-around is
observable.
-/

deriving instance DecidableEq for Except

/-- One parsed MD:Z run, mirroring `struct OpRunOffset`: `op` is 0 for a
matching stretch, 1 for a mismatching stretch, 2 for a deletion; `run` is the
run length; `offset` indexes the side buffer of reference characters (unused
by the transcript builders, carried for fidelity). -/
structure OpRunOffset where
  op : Nat
  run : Nat
  offset : Int
deriving DecidableEq, Repr

/-- The inner `while(runleft > 0 && mdo < mdz_oro.size())` loop of
`Alignment::cigar_and_mdz_to_edit_xscript`, which spends the budget of one
CIGAR `M` run against the MD:Z run list.  Returns the emitted transcript
characters and the remaining MD:Z runs (a split match run leaves its
remainder at the head, as the C++ code does by decrementing
`mdz_oro[mdo].run`).  The `assert(op_m == 0 || op_m == 1)` and
`assert(run_m == run_comb)` failures become errors. -/
def cigar_m_loop : Nat → List OpRunOffset → Except Unit (List Char × List OpRunOffset)
  | 0, md => .ok ([], md)
  | _ + 1, [] => .ok ([], [])
  | n + 1, r :: tl =>
    if r.op = 0 then
      let rc := min (n + 1) r.run
      if rc < r.run then
        match cigar_m_loop (n + 1 - rc) (⟨0, r.run - rc, r.offset⟩ :: tl) with
        | .error e => .error e
        | .ok (em, md2) => .ok (List.replicate rc '=' ++ em, md2)
      else
        match cigar_m_loop (n + 1 - rc) tl with
        | .error e => .error e
        | .ok (em, md2) => .ok (List.replicate rc '=' ++ em, md2)
    else if r.op = 1 then
      let rc := min (n + 1) r.run
      if r.run = rc then
        match cigar_m_loop (n + 1 - rc) tl with
        | .error e => .error e
        | .ok (em, md2) => .ok (List.replicate r.run 'X' ++ em, md2)
      else .error ()
    else .error ()
termination_by n md => md.length + n
decreasing_by
  all_goals simp_wf
  all_goals omega

/-- Direct path `Alignment::cigar_to_edit_xscript`: a CIGAR that already uses
`=`/`X` is expanded run by run into the edit transcript.  The
`assert(cop != 'M' && cop != 'P')` becomes an error.  Note that every other
op — including `H` — is expanded to its run length. -/
def cigar_to_edit_xscript : List (Char × Nat) → Except Unit (List Char)
  | [] => .ok []
  | (cop, crun) :: rest =>
    if cop = 'M' ∨ cop = 'P' then .error ()
    else
      match cigar_to_edit_xscript rest with
      | .error e => .error e
      | .ok t => .ok (List.replicate crun cop ++ t)

/-- Reconciliation path `Alignment::cigar_and_mdz_to_edit_xscript`: walk the
CIGAR run list and the MD:Z run list with independent cursors.  `M` runs are
spent by `cigar_m_loop`; `D` must meet a deletion run of equal length
(`assert(op_m == 2)`, `assert(crun == run_m)`); `H` is skipped; `P`, `=`,
`X` and unknown ops throw; the final `assert(mdo == mdz_oro.size())` requires
the MD:Z runs to be fully consumed. -/
def cigar_and_mdz_to_edit_xscript : List (Char × Nat) → List OpRunOffset → Except Unit (List Char)
  | [], md => if md.isEmpty then .ok [] else .error ()
  | (cop, crun) :: rest, md =>
    if cop = 'M' then
      match cigar_m_loop crun md with
      | .error e => .error e
      | .ok (em, md2) =>
        match cigar_and_mdz_to_edit_xscript rest md2 with
        | .error e => .error e
        | .ok t => .ok (em ++ t)
    else if cop = 'I' then
      match cigar_and_mdz_to_edit_xscript rest md with
      | .error e => .error e
      | .ok t => .ok (List.replicate crun 'I' ++ t)
    else if cop = 'D' then
      match md with
      | [] => .error ()
      | r :: tl =>
        if r.op = 2 ∧ crun = r.run then
          match cigar_and_mdz_to_edit_xscript rest tl with
          | .error e => .error e
          | .ok t => .ok (List.replicate r.run 'D' ++ t)
        else .error ()
    else if cop = 'N' then
      match cigar_and_mdz_to_edit_xscript rest md with
      | .error e => .error e
      | .ok t => .ok (List.replicate crun 'N' ++ t)
    else if cop = 'S' then
      match cigar_and_mdz_to_edit_xscript rest md with
      | .error e => .error e
      | .ok t => .ok (List.replicate crun 'S' ++ t)
    else if cop = 'H' then
      cigar_and_mdz_to_edit_xscript rest md
    else .error ()

/-- Spec-side construction for the transcript-equivalence property: the plain
CIGAR that encodes the same alignment as an extended CIGAR replaces each
`=`/`X` run by an `M` run of the same length. -/
def collapseExtCigar (cig : List (Char × Nat)) : List (Char × Nat) :=
  cig.map (fun p => if p.1 = '=' ∨ p.1 = 'X' then ('M', p.2) else p)

/-- Prepend a matching stretch of length `k` to an MD:Z run list, merging
with a leading match run (an MD:Z string never separates two adjacent
matching stretches) and dropping a zero-length stretch (as
`Alignment::mdz_to_list` only records a match run when `run > 0`). -/
def addMatchRun (k : Nat) (md : List OpRunOffset) : List OpRunOffset :=
  if k = 0 then md
  else
    match md with
    | [] => [⟨0, k, -1⟩]
    | r :: tl => if r.op = 0 then ⟨0, k + r.run, r.offset⟩ :: tl else ⟨0, k, -1⟩ :: r :: tl

/-- Spec-side construction for the transcript-equivalence property: the MD:Z
run list that encodes the same alignment as an extended CIGAR.  `=` runs
become matching stretches (merged across ops the MD:Z string does not see),
each `X` position becomes a single-base mismatch run (mismatches are
single-base runs in practice), `D` runs become deletion runs, and `I`, `N`,
`S`, `H` leave no trace in the MD:Z string. -/
def mdzRunsOfExtCigar : List (Char × Nat) → List OpRunOffset
  | [] => []
  | (c, k) :: rest =>
    if c = '=' then addMatchRun k (mdzRunsOfExtCigar rest)
    else if c = 'X' then List.replicate k ⟨1, 1, -1⟩ ++ mdzRunsOfExtCigar rest
    else if c = 'D' then ⟨2, k, -1⟩ :: mdzRunsOfExtCigar rest
    else mdzRunsOfExtCigar rest

/-- Per-base expansion of an extended CIGAR: the transcript both paths should
produce on a hard-clip-free extended CIGAR. -/
def extXscript (ext : List (Char × Nat)) : List Char :=
  (ext.map (fun p => List.replicate p.2 p.1)).flatten

lemma mdzRunsOfExtCigar_match_pos (ext : List (Char × Nat)) :
    ∀ r ∈ mdzRunsOfExtCigar ext, r.op = 0 → 0 < r.run := by
  induction ext with
  | nil => simp [mdzRunsOfExtCigar]
  | cons p rest ih =>
    obtain ⟨c, k⟩ := p
    intro r hr hop
    rw [mdzRunsOfExtCigar] at hr
    by_cases hc1 : c = '='
    · rw [if_pos hc1] at hr
      unfold addMatchRun at hr
      by_cases hk : k = 0
      · rw [if_pos hk] at hr; exact ih r hr hop
      · rw [if_neg hk] at hr
        rcases hmd : mdzRunsOfExtCigar rest with _ | ⟨r0, tl⟩ <;> rw [hmd] at hr <;>
          dsimp only at hr
        · simp only [List.mem_singleton] at hr
          subst hr; show 0 < k; omega
        · by_cases hop0 : r0.op = 0
          · rw [if_pos hop0] at hr
            rcases List.mem_cons.mp hr with h | h
            · subst h; show 0 < k + r0.run; omega
            · exact ih r (by rw [hmd]; exact List.mem_cons_of_mem _ h) hop
          · rw [if_neg hop0] at hr
            rcases List.mem_cons.mp hr with h | h
            · subst h; show 0 < k; omega
            · exact ih r (by rw [hmd]; exact h) hop
    · rw [if_neg hc1] at hr
      by_cases hc2 : c = 'X'
      · rw [if_pos hc2] at hr
        rcases List.mem_append.mp hr with h | h
        · have := List.eq_of_mem_replicate h; subst this; simp at hop
        · exact ih r h hop
      · rw [if_neg hc2] at hr
        by_cases hc3 : c = 'D'
        · rw [if_pos hc3] at hr
          rcases List.mem_cons.mp hr with h | h
          · subst h; simp at hop
          · exact ih r h hop
        · rw [if_neg hc3] at hr; exact ih r hr hop

lemma cigar_m_loop_addMatchRun (k : Nat) (md : List OpRunOffset)
    (h : ∀ r0 tl, md = r0 :: tl → r0.op = 0 → 0 < r0.run) :
    cigar_m_loop k (addMatchRun k md) = .ok (List.replicate k '=', md) := by
  match k with
  | 0 =>
    simp [addMatchRun, cigar_m_loop]
  | n + 1 =>
    unfold addMatchRun
    simp only [Nat.succ_ne_zero, if_false]
    rcases md with _ | ⟨r0, tl⟩
    · rw [cigar_m_loop]
      simp [cigar_m_loop]
    · by_cases hop : r0.op = 0
      · have hpos : 0 < r0.run := h r0 tl rfl hop
        simp only [if_pos hop]
        rw [cigar_m_loop]
        have hmin : min (n + 1) (n + 1 + r0.run) = n + 1 := by omega
        have hlt : n + 1 < n + 1 + r0.run := by omega
        have hsub2 : n + 1 + r0.run - (n + 1) = r0.run := by omega
        simp only [hmin, hlt, if_true, if_pos rfl, Nat.sub_self, hsub2]
        rw [cigar_m_loop]
        simp only [List.append_nil]
        rcases r0 with ⟨op0, run0, off0⟩
        simp only at hop
        subst hop
        simp
      · simp only [if_neg hop]
        rw [cigar_m_loop]
        simp [cigar_m_loop]

lemma cigar_m_loop_replicate_mismatch (k : Nat) (md : List OpRunOffset) :
    cigar_m_loop k (List.replicate k (⟨1, 1, -1⟩ : OpRunOffset) ++ md) =
      .ok (List.replicate k 'X', md) := by
  induction k with
  | zero => simp [cigar_m_loop]
  | succ n ih =>
    rw [List.replicate_succ, List.cons_append, cigar_m_loop]
    have hmin : min (n + 1) 1 = 1 := by omega
    have hsub : n + 1 - 1 = n := by omega
    simp [hmin, hsub, ih, List.replicate_succ]

lemma cigar_to_edit_xscript_eq (ext : List (Char × Nat))
    (h : ∀ p ∈ ext, p.1 ≠ 'M' ∧ p.1 ≠ 'P') :
    cigar_to_edit_xscript ext = .ok (extXscript ext) := by
  induction ext with
  | nil => simp [cigar_to_edit_xscript, extXscript]
  | cons p rest ih =>
    obtain ⟨c, k⟩ := p
    obtain ⟨hM, hP⟩ := h (c, k) (List.mem_cons_self _ _)
    rw [cigar_to_edit_xscript]
    simp only [hM, hP, or_self, if_false]
    rw [ih (fun q hq => h q (List.mem_cons_of_mem _ hq))]
    simp [extXscript]

lemma collapseExtCigar_cons (c : Char) (k : Nat) (rest : List (Char × Nat)) :
    collapseExtCigar ((c, k) :: rest) =
      (if c = '=' ∨ c = 'X' then ('M', k) else (c, k)) :: collapseExtCigar rest := by
  simp [collapseExtCigar]

lemma cigar_and_mdz_eq (ext : List (Char × Nat))
    (h : ∀ p ∈ ext, p.1 = '=' ∨ p.1 = 'X' ∨ p.1 = 'I' ∨ p.1 = 'D' ∨ p.1 = 'N' ∨ p.1 = 'S') :
    cigar_and_mdz_to_edit_xscript (collapseExtCigar ext) (mdzRunsOfExtCigar ext) =
      .ok (extXscript ext) := by
  induction ext with
  | nil =>
    simp [collapseExtCigar, mdzRunsOfExtCigar, cigar_and_mdz_to_edit_xscript, extXscript]
  | cons p rest ih =>
    obtain ⟨c, k⟩ := p
    have hrest := ih (fun q hq => h q (List.mem_cons_of_mem _ hq))
    have hc := h (c, k) (List.mem_cons_self _ _)
    have hpos : ∀ r0 tl, mdzRunsOfExtCigar rest = r0 :: tl → r0.op = 0 → 0 < r0.run :=
      fun r0 tl hmd hop =>
        mdzRunsOfExtCigar_match_pos rest r0 (by rw [hmd]; exact List.mem_cons_self _ _) hop
    simp only at hc
    rcases hc with hc | hc | hc | hc | hc | hc <;> subst hc
    · have hm := cigar_m_loop_addMatchRun k (mdzRunsOfExtCigar rest) hpos
      rw [collapseExtCigar_cons, mdzRunsOfExtCigar]
      simp [cigar_and_mdz_to_edit_xscript, hm, hrest, extXscript]
    · have hm := cigar_m_loop_replicate_mismatch k (mdzRunsOfExtCigar rest)
      rw [collapseExtCigar_cons, mdzRunsOfExtCigar]
      simp [cigar_and_mdz_to_edit_xscript, hm, hrest, extXscript]
    · rw [collapseExtCigar_cons, mdzRunsOfExtCigar]
      simp [cigar_and_mdz_to_edit_xscript, hrest, extXscript]
    · rw [collapseExtCigar_cons, mdzRunsOfExtCigar]
      simp [cigar_and_mdz_to_edit_xscript, hrest, extXscript]
    · rw [collapseExtCigar_cons, mdzRunsOfExtCigar]
      simp [cigar_and_mdz_to_edit_xscript, hrest, extXscript]
    · rw [collapseExtCigar_cons, mdzRunsOfExtCigar]
      simp [cigar_and_mdz_to_edit_xscript, hrest, extXscript]

/-- C1 (amended): for an extended CIGAR over the ops `=`, `X`, `I`, `D`,
`N`, `S` — i.e. with no hard clip — the CIGAR+MD:Z reconciliation path, fed
the plain CIGAR and the MD:Z run list that encode the same alignment, yields
exactly the transcript of the extended-CIGAR direct path. -/
theorem xscript_paths_agree_without_hard_clip (ext : List (Char × Nat))
    (h : ∀ p ∈ ext, p.1 = '=' ∨ p.1 = 'X' ∨ p.1 = 'I' ∨ p.1 = 'D' ∨ p.1 = 'N' ∨ p.1 = 'S') :
    cigar_and_mdz_to_edit_xscript (collapseExtCigar ext) (mdzRunsOfExtCigar ext) =
      cigar_to_edit_xscript ext := by
  rw [cigar_and_mdz_eq ext h]
  rw [cigar_to_edit_xscript_eq ext]
  intro p hp
  rcases h p hp with hc | hc | hc | hc | hc | hc <;> rw [hc] <;> exact ⟨by decide, by decide⟩

/-- Witness for the amended C1 theorem at a concrete extended CIGAR that
exercises every permitted op. -/
theorem xscript_paths_agree_without_hard_clip_witness :
    cigar_and_mdz_to_edit_xscript
        (collapseExtCigar [('S', 1), ('=', 3), ('X', 1), ('I', 2), ('=', 2), ('D', 2), ('N', 1), ('S', 2)])
        (mdzRunsOfExtCigar [('S', 1), ('=', 3), ('X', 1), ('I', 2), ('=', 2), ('D', 2), ('N', 1), ('S', 2)]) =
      cigar_to_edit_xscript [('S', 1), ('=', 3), ('X', 1), ('I', 2), ('=', 2), ('D', 2), ('N', 1), ('S', 2)] :=
  xscript_paths_agree_without_hard_clip _ (by decide)

/-- Counterexample to C1 as stated: the direct path does not drop `H` (it
expands every op other than `M`/`P`), so on a CIGAR with a hard clip the two
paths disagree even though plain CIGAR and MD:Z encode the same alignment. -/
theorem xscript_paths_differ_on_hard_clip :
    cigar_to_edit_xscript [('=', 2), ('H', 1)] = .ok ['=', '=', 'H'] ∧
    cigar_and_mdz_to_edit_xscript (collapseExtCigar [('=', 2), ('H', 1)])
        (mdzRunsOfExtCigar [('=', 2), ('H', 1)]) = .ok ['=', '='] ∧
    cigar_and_mdz_to_edit_xscript (collapseExtCigar [('=', 2), ('H', 1)])
        (mdzRunsOfExtCigar [('=', 2), ('H', 1)]) ≠
      cigar_to_edit_xscript [('=', 2), ('H', 1)] := by
  have h1 := cigar_m_loop_addMatchRun 2 [] (by intro r0 tl hh _; cases hh)
  simp only [addMatchRun] at h1
  norm_num at h1
  refine ⟨by decide, ?_, ?_⟩ <;>
    simp [cigar_and_mdz_to_edit_xscript, cigar_to_edit_xscript, collapseExtCigar,
      mdzRunsOfExtCigar, addMatchRun, h1]

/-- C6: illegal CIGAR shapes abort transcript construction.  In the direct
path any `M` or `P` op yields an error; in the reconciliation path a `D` run
whose length differs from the MD:Z deletion run at the cursor yields an
error. -/
theorem illegal_cigar_shapes_error :
    (∀ (cig : List (Char × Nat)), (∃ p ∈ cig, p.1 = 'M' ∨ p.1 = 'P') →
        cigar_to_edit_xscript cig = .error ()) ∧
    (∀ (crun : Nat) (rest : List (Char × Nat)) (r : OpRunOffset) (tl : List OpRunOffset),
        r.op = 2 → crun ≠ r.run →
        cigar_and_mdz_to_edit_xscript (('D', crun) :: rest) (r :: tl) = .error ()) := by
  constructor
  · intro cig h
    induction cig with
    | nil => simp at h
    | cons p rest ih =>
      obtain ⟨c, k⟩ := p
      rw [cigar_to_edit_xscript]
      rcases h with ⟨q, hq, hMP⟩
      rcases List.mem_cons.mp hq with h1 | h1
      · subst h1
        simp only at hMP
        simp [hMP]
      · by_cases hck : (c = 'M' ∨ c = 'P')
        · simp [hck]
        · rw [if_neg hck, ih ⟨q, h1, hMP⟩]
  · intro crun rest r tl hop hne
    rw [cigar_and_mdz_to_edit_xscript]
    simp [hop, hne]

/-- Witness for C6 at concrete illegal shapes: an `M` op in the direct path,
and a `D` run of length 3 against a deletion run of length 2. -/
theorem illegal_cigar_shapes_error_witness :
    cigar_to_edit_xscript [('M', 5)] = .error () ∧
    cigar_and_mdz_to_edit_xscript [('D', 3)] [⟨2, 2, 0⟩] = .error () :=
  ⟨illegal_cigar_shapes_error.1 [('M', 5)] ⟨('M', 5), by decide, by decide⟩,
   illegal_cigar_shapes_error.2 3 [] ⟨2, 2, 0⟩ [] rfl (by decide)⟩

/-- Fields set by `Alignment::calc_qual_averages`.  The two averages are
`double`s in the source; they are modelled as exact rationals, which agrees
with the source on the sentinel constant and on the integer totals the
claims are about. -/
structure QualAverages where
  tot_clipped_qual : Nat
  tot_aligned_qual : Nat
  avg_clipped_qual : ℚ
  avg_aligned_qual : ℚ
  left_clip : Nat
  right_clip : Nat
deriving DecidableEq, Repr

/-- `Alignment::calc_qual_averages`: loop over `i < len`, treating position
`i` as clipped when `i < left_clip || i >= len - 1 - right_clip` and as
aligned otherwise, summing `qual[i] - 33` into the corresponding total;
`avg_aligned_qual` divides by `len - nclipped`; when the total clip is at
most one base the clipped average becomes the sentinel 100.0 and the clip
bookkeeping is zeroed. -/
def calc_qual_averages (qual : List Nat) (left_clip right_clip : Nat) : QualAverages :=
  let len := qual.length
  let nclipped := left_clip + right_clip
  let clipped := (List.range len).filter (fun i => i < left_clip ∨ i ≥ len - 1 - right_clip)
  let aligned := (List.range len).filter (fun i => ¬(i < left_clip ∨ i ≥ len - 1 - right_clip))
  let tot_clipped := clipped.foldl (fun a i => a + (qual.getD i 0 - 33)) 0
  let tot_aligned := aligned.foldl (fun a i => a + (qual.getD i 0 - 33)) 0
  let avg_aligned : ℚ := (tot_aligned : ℚ) / ((len - nclipped : Nat) : ℚ)
  if nclipped > 1 then
    ⟨tot_clipped, tot_aligned, (tot_clipped : ℚ) / (nclipped : ℚ), avg_aligned,
      left_clip, right_clip⟩
  else
    ⟨0, tot_aligned, 100, avg_aligned, 0, 0⟩

/-- C9: whenever the total soft-clip is at most one base, the clipped-quality
average is the sentinel 100.0, the clipped total is reset to 0 and both clip
lengths are zeroed. -/
theorem small_clip_sentinel (qual : List Nat) (lc rc : Nat) (h : lc + rc ≤ 1) :
    (calc_qual_averages qual lc rc).avg_clipped_qual = 100 ∧
    (calc_qual_averages qual lc rc).tot_clipped_qual = 0 ∧
    (calc_qual_averages qual lc rc).left_clip = 0 ∧
    (calc_qual_averages qual lc rc).right_clip = 0 := by
  unfold calc_qual_averages
  have hn : ¬(lc + rc > 1) := by omega
  simp [hn]

/-- Witness for C9 at a record with exactly one clipped base. -/
theorem small_clip_sentinel_witness :
    (calc_qual_averages [73, 73, 73, 73] 1 0).avg_clipped_qual = 100 ∧
    (calc_qual_averages [73, 73, 73, 73] 1 0).tot_clipped_qual = 0 ∧
    (calc_qual_averages [73, 73, 73, 73] 1 0).left_clip = 0 ∧
    (calc_qual_averages [73, 73, 73, 73] 1 0).right_clip = 0 :=
  small_clip_sentinel [73, 73, 73, 73] 1 0 (by decide)

/-- C3 failing input: quality string IIII (value 40 per base) with
`left_clip = right_clip = 1`.  The clipped branch condition
`i >= len - 1 - right_clip` admits indices 2 and 3, so the clipped total
takes three bases (120) and the aligned total one base (40), while the claim
(and the divisor `len - nclipped` the code itself uses for the aligned
average) demands two bases on each side (80 and 80). -/
theorem calc_qual_averages_boundary_bug :
    (calc_qual_averages [73, 73, 73, 73] 1 1).tot_clipped_qual = 120 ∧
    (calc_qual_averages [73, 73, 73, 73] 1 1).tot_aligned_qual = 40 ∧
    ((73 - 33) + (73 - 33) : Nat) = 80 ∧ (120 : Nat) ≠ 80 ∧ (40 : Nat) ≠ 80 := by
  decide

/-- `Alignment::lpos`: leftmost reference position involved in the
alignment, counting the left soft clip (`pos - left_clip`). -/
def lpos (pos left_clip : Nat) : Nat := pos - left_clip

/-- `Alignment::rpos`: the skip loop `while(*xs++ == 'S');` leaves the
cursor one past the first non-S transcript character, so `mv` counts the
characters in `{'S','D','X','='}` strictly after that character; the result
is `pos + mv - 1`. -/
def rpos (pos : Nat) (xscript : List Char) : Nat :=
  let rest := (xscript.dropWhile (fun c => c = 'S')).drop 1
  let mv := (rest.filter (fun c => c = 'S' ∨ c = 'D' ∨ c = 'X' ∨ c = '=')).length
  pos + mv - 1

/-- Geometry of one aligned mate as used by `Alignment::fragment_length`. -/
structure AlnGeom where
  pos : Nat
  left_clip : Nat
  xscript : List Char
deriving DecidableEq, Repr

/-- `Alignment::fragment_length`: the mate with the smaller `pos` is
upstream; the result is `dn.rpos() - up.lpos() + 1`.  The SAM `tlen` field
is not an input. -/
def fragment_length (al1 al2 : AlnGeom) : Nat :=
  let up := if al1.pos < al2.pos then al1 else al2
  let dn := if al1.pos < al2.pos then al2 else al1
  rpos dn.pos dn.xscript - lpos up.pos up.left_clip + 1

/-- The fragment length `print_paired_helper` emits:
`min((size_t)max_allowed_fraglen, Alignment::fragment_length(al1, al2))`. -/
def emitted_fraglen (max_allowed_fraglen : Nat) (al1 al2 : AlnGeom) : Nat :=
  min max_allowed_fraglen (fragment_length al1 al2)

/-- Spec-side rightmost reference position of an alignment: `pos` plus every
reference-consuming or soft-clipped transcript character from the first
non-S character onward, minus one (the doc comment of `Alignment::rpos`:
"rightmost reference pos involved in the alignment, considering soft
clipped bases as being included"). -/
def specRpos (pos : Nat) (xscript : List Char) : Nat :=
  let rest := xscript.dropWhile (fun c => c = 'S')
  let mv := (rest.filter (fun c => c = 'S' ∨ c = 'D' ∨ c = 'X' ∨ c = '=' ∨ c = 'N')).length
  pos + mv - 1

/-- C4 failing input: two mates of two matched bases each at positions 100
and 110 with no clipping.  The downstream mate covers reference positions
110 and 111, so the claimed fragment length is 111 - 100 + 1 = 12, but
`rpos` skips the first aligned base (`while(*xs++ == 'S')` post-increment)
and returns 110, so the code emits 11. -/
theorem fragment_length_off_by_one :
    fragment_length ⟨100, 0, ['=', '=']⟩ ⟨110, 0, ['=', '=']⟩ = 11 ∧
    emitted_fraglen 50000 ⟨100, 0, ['=', '=']⟩ ⟨110, 0, ['=', '=']⟩ = 11 ∧
    specRpos 110 ['=', '='] - lpos 100 0 + 1 = 12 ∧ (11 : Nat) ≠ 12 := by
  decide

/-- Per-mate inputs of the feature-record assembly in `print_paired_helper`:
line id, lengths, clip/quality totals, MAPQ, correctness label, and the
mate's ZT:Z values as already pushed into `ztz1_buf`/`ztz2_buf` (doubles are
modelled as `Option ℚ`, `none` being the NaN written for an `NA` token). -/
structure FeatureFields where
  line : Nat
  len : Nat
  clip : Nat
  alqual : Nat
  clipqual : Nat
  mapq : Nat
  correct : Int
  ztz : List (Option ℚ)
deriving DecidableEq, Repr

/-- The `write_buf` contents flushed by `print_paired_helper(al1, al2, ...)`
for one pair: first the record centred on its first argument (own fields,
own ZT:Z, then the other mate's fields, the fragment length, the other
mate's ZT:Z, own MAPQ and correctness), then the record centred on the
second argument with the saved values swapped and the same fragment
length. -/
def print_paired_helper_buf (al1 al2 : FeatureFields) (fraglen : Nat) : List (Option ℚ) :=
  [some (al1.line : ℚ), some (al1.len : ℚ), some (al1.clip : ℚ),
      some (al1.alqual : ℚ), some (al1.clipqual : ℚ)]
    ++ al1.ztz
    ++ [some (al2.len : ℚ), some (al2.clip : ℚ), some (al2.alqual : ℚ),
      some (al2.clipqual : ℚ), some (fraglen : ℚ)]
    ++ al2.ztz
    ++ [some (al1.mapq : ℚ), some (al1.correct : ℚ)]
    ++ [some (al2.line : ℚ), some (al2.len : ℚ), some (al2.clip : ℚ),
      some (al2.alqual : ℚ), some (al2.clipqual : ℚ)]
    ++ al2.ztz
    ++ [some (al1.len : ℚ), some (al1.clip : ℚ), some (al1.alqual : ℚ),
      some (al1.clipqual : ℚ), some (fraglen : ℚ)]
    ++ al1.ztz
    ++ [some (al2.mapq : ℚ), some (al2.correct : ℚ)]

/-- `print_paired`: the helper is called with the record that appeared
earlier in the SAM (smaller line id) as its first argument. -/
def print_paired_buf (m1 m2 : FeatureFields) (fraglen : Nat) : List (Option ℚ) :=
  if m1.line < m2.line then print_paired_helper_buf m1 m2 fraglen
  else print_paired_helper_buf m2 m1 fraglen

/-- Spec-side single feature record of the paired layout, centred on `own`:
`[line_id, len, clip, alqual, clipqual, ztz..., other_len, other_clip,
other_alqual, other_clipqual, fraglen, other_ztz..., mapq, correct]`. -/
def pairedRecordFor (own other : FeatureFields) (fraglen : Nat) : List (Option ℚ) :=
  [some (own.line : ℚ), some (own.len : ℚ), some (own.clip : ℚ),
      some (own.alqual : ℚ), some (own.clipqual : ℚ)]
    ++ own.ztz
    ++ [some (other.len : ℚ), some (other.clip : ℚ), some (other.alqual : ℚ),
      some (other.clipqual : ℚ), some (fraglen : ℚ)]
    ++ other.ztz
    ++ [some (own.mapq : ℚ), some (own.correct : ℚ)]

/-- C5 (amended): a pair is emitted as exactly two feature records of the
claimed layout, the first centred on the mate that appears earlier in the
SAM (smaller line id) and the second on the later mate; the "other" fields
of each record are the own fields of the opposite record and both records
carry the same fragment length. -/
theorem paired_records_mirrored (m1 m2 : FeatureFields) (fraglen : Nat) :
    (m1.line < m2.line →
      print_paired_buf m1 m2 fraglen =
        pairedRecordFor m1 m2 fraglen ++ pairedRecordFor m2 m1 fraglen) ∧
    (¬m1.line < m2.line →
      print_paired_buf m1 m2 fraglen =
        pairedRecordFor m2 m1 fraglen ++ pairedRecordFor m1 m2 fraglen) := by
  constructor <;> intro h <;>
    simp [print_paired_buf, h, print_paired_helper_buf, pairedRecordFor]

/-- Witness for the amended C5 theorem at a concrete pair (mate 1 on the
earlier line). -/
theorem paired_records_mirrored_witness :
    print_paired_buf ⟨4, 100, 1, 50, 2, 60, 1, [some 7]⟩ ⟨5, 90, 0, 40, 3, 50, 0, [some 8]⟩ 200 =
      pairedRecordFor ⟨4, 100, 1, 50, 2, 60, 1, [some 7]⟩ ⟨5, 90, 0, 40, 3, 50, 0, [some 8]⟩ 200 ++
        pairedRecordFor ⟨5, 90, 0, 40, 3, 50, 0, [some 8]⟩ ⟨4, 100, 1, 50, 2, 60, 1, [some 7]⟩ 200 :=
  (paired_records_mirrored ⟨4, 100, 1, 50, 2, 60, 1, [some 7]⟩
    ⟨5, 90, 0, 40, 3, 50, 0, [some 8]⟩ 200).1 (by decide)

/-- Counterexample to C5 as stated: when mate 2 appears on the earlier SAM
line, the first emitted record is mate-2-centric, not mate-1-centric. -/
theorem paired_records_not_mate1_first :
    print_paired_buf ⟨5, 100, 1, 50, 2, 60, 1, [some 7]⟩ ⟨4, 90, 0, 40, 3, 50, 0, [some 8]⟩ 200 ≠
      pairedRecordFor ⟨5, 100, 1, 50, 2, 60, 1, [some 7]⟩ ⟨4, 90, 0, 40, 3, 50, 0, [some 8]⟩ 200 ++
        pairedRecordFor ⟨4, 90, 0, 40, 3, 50, 0, [some 8]⟩ ⟨5, 100, 1, 50, 2, 60, 1, [some 7]⟩ 200 := by
  decide

/-- The NUL character a C string read yields at its terminator. -/
def nulChar : Char := Char.ofNat 0

/-- Reading the first character of a C string: the NUL terminator when the
string is empty. -/
def cstr_head : List Char → Char
  | [] => nulChar
  | c :: _ => c

/-- Modelled from the spec: `sim_startswith`, the fixed prefix marking the
tool's own simulated read names, is defined in the simulator module
(`simplesim`), which is outside this source file; the spec says only that it
is "a fixed prefix".  The concrete qtip value is used. -/
def sim_startswith : List Char := ['!', '!', 't', 's', '!', '!']

/-- Modelled from the spec: `sim_sep`, the field delimiter of the tool's own
simulated read names, is defined outside this source file; the spec says
only that the fields are delimiter-separated.  The concrete qtip value is
used. -/
def sim_sep : Char := '!'

/-- One stream record as `sam_pass1` holds it before emission: the strtok'd
read name, the flags, the untokenized remainder of the line (starting at the
reference-name column), the 1-based source line number, and the
simulated-type tag `typ` (set by the current step from the read name). -/
structure SamRec where
  qname : List Char
  flag : Nat
  rest_of_line : List Char
  line : Nat
  typ : Option (List Char)
deriving DecidableEq, Repr

/-- `Alignment::is_aligned`: flag bit 4 clear. -/
def SamRec.is_aligned (r : SamRec) : Bool := r.flag &&& 4 = 0

/-- `Alignment::is_concordant`: flag bit 2 set. -/
def SamRec.is_concordant (r : SamRec) : Bool := r.flag &&& 2 ≠ 0

/-- `Alignment::mate_flag`: '1' if flag bit 64, else '2' if flag bit 128,
else '0'. -/
def SamRec.mate_flag (r : SamRec) : Char :=
  if r.flag &&& 64 ≠ 0 then '1' else if r.flag &&& 128 ≠ 0 then '2' else '0'

/-- The suffix of a name after the last occurrence of `sim_sep` (the
`while(*cur != '\0') { if(*cur == sim_sep) typ = cur+1; cur++; }` scan). -/
def last_sep_suffix : List Char → Option (List Char)
  | [] => none
  | c :: tl =>
    match last_sep_suffix tl with
    | some s => some s
    | none => if c = sim_sep then some tl else none

/-- The simulated-type extraction of `sam_pass1` (lines 1363-1374): when the
read name starts with `sim_startswith`, `typ` is the suffix after the last
separator (`assert(al_cur.typ != NULL)` errors when no separator exists);
otherwise `typ` stays NULL. -/
def extract_typ (qname : List Char) : Except Unit (Option (List Char)) :=
  if sim_startswith.isPrefixOf qname then
    match last_sep_suffix qname with
    | some s => .ok (some s)
    | none => .error ()
  else .ok none

/-- Length of the field before the next tab (`while(*cur++ != '\t') len++`);
running off the end of the line is out of model. -/
def count_to_tab : List Char → Except Unit Nat
  | [] => .error ()
  | c :: tl =>
    if c = '\t' then .ok 0
    else
      match count_to_tab tl with
      | .error e => .error e
      | .ok n => .ok (n + 1)

/-- Skip forward until `n` tabs have been consumed. -/
def skip_tabs : Nat → List Char → Except Unit (List Char)
  | 0, rest => .ok rest
  | _ + 1, [] => .error ()
  | n + 1, c :: tl => if c = '\t' then skip_tabs n tl else skip_tabs (n + 1) tl

/-- `infer_read_length`: starting at the remainder of the line (the
reference-name column), skip to the 7th tab and return the length of the
following field (the sequence column). -/
def infer_read_length (rest_of_line : List Char) : Except Unit Nat :=
  match skip_tabs 7 rest_of_line with
  | .error e => .error e
  | .ok r => count_to_tab r

/-- What `sam_pass1` does with one input record (or with the pair the record
completes). -/
inductive Pass1Outcome
  | skip_secondary
  | skip_supplementary
  | count_unpaired_unaligned
  | emit_unpaired (payload : SamRec)
  | count_pair_unaligned
  | emit_bad_end (payload : SamRec) (ordlen : Nat)
  | emit_concordant (m1 m2 : SamRec)
  | emit_discordant (m1 m2 : SamRec)
  | type_mismatch
  | pend
deriving DecidableEq, Repr

/-- The mutable pairing state of `sam_pass1`: the two alternating record
buffers `al1`/`al2` (holding a record exactly when its `valid` flag is set,
i.e. a pending unmatched paired-end mate) and the buffer selector
`al_cur1`. -/
structure Pass1State where
  al1 : Option SamRec
  al2 : Option SamRec
  al_cur1 : Bool
deriving DecidableEq, Repr

/-- The initial state of the loop (`al_cur1 = 1`, both buffers invalid). -/
def pass1_init : Pass1State := ⟨none, none, true⟩

/-- Classification of a resolved mate pair (the `else if(mate1 != NULL)`
chain of `sam_pass1`, lines 1405-1488): both unaligned is counted; exactly
one aligned goes to the bad-end lane with the aligned mate as payload and
the other mate's cheaply-inferred read length; both aligned goes to the
concordant or discordant lane by flag 0x2 (`assert` requires the two
concordant flags to agree); each emitting branch is overridden by a counted
type mismatch when the designated record's tag disagrees. -/
def classify_pair (m1 m2 : SamRec) (cleared : Pass1State) :
    Except Unit (Pass1Outcome × Pass1State) :=
  if ¬m1.is_aligned ∧ ¬m2.is_aligned then .ok (.count_pair_unaligned, cleared)
  else if m1.is_aligned ≠ m2.is_aligned then
    let alm := if m1.is_aligned then m1 else m2
    let other := if m1.is_aligned then m2 else m1
    if alm.typ = none ∨
        (cstr_head (alm.typ.getD []) = 'b' ∧
          cstr_head (alm.typ.getD []).tail = alm.mate_flag) then
      match infer_read_length other.rest_of_line with
      | .error e => .error e
      | .ok ordlen => .ok (.emit_bad_end alm ordlen, cleared)
    else .ok (.type_mismatch, cleared)
  else
    if m1.is_concordant ≠ m2.is_concordant then .error ()
    else if m1.is_concordant then
      if m1.typ = none ∨ cstr_head (m1.typ.getD []) = 'c' then
        .ok (.emit_concordant m1 m2, cleared)
      else .ok (.type_mismatch, cleared)
    else
      if m1.typ = none ∨ cstr_head (m1.typ.getD []) = 'd' then
        .ok (.emit_discordant m1 m2, cleared)
      else .ok (.type_mismatch, cleared)

/-- One iteration of the `sam_pass1` read loop for a non-header line:
secondary (0x100) and supplementary (0x800) records are skipped before the
buffers rotate; `assert(!al_cur.valid)` errors when the record lands on a
buffer still holding a pending mate; a paired record is mated with a valid
previous record (erroring on two consecutive records claiming the same mate
role); the simulated-type tag is extracted from the name; then the record or
resolved pair is classified into exactly one outcome. -/
def sam_pass1_step (s : Pass1State) (r : SamRec) : Except Unit (Pass1Outcome × Pass1State) :=
  if r.flag &&& 256 ≠ 0 then .ok (.skip_secondary, s)
  else if r.flag &&& 2048 ≠ 0 then .ok (.skip_supplementary, s)
  else
    let curSlot := if s.al_cur1 then s.al1 else s.al2
    let prevSlot := if s.al_cur1 then s.al2 else s.al1
    let next := !s.al_cur1
    if curSlot.isSome then .error ()
    else
      match extract_typ r.qname with
      | .error e => .error e
      | .ok t =>
        let cur : SamRec := { r with typ := t }
        let unchanged : Pass1State := ⟨s.al1, s.al2, next⟩
        let cleared : Pass1State :=
          if s.al_cur1 then ⟨s.al1, none, next⟩ else ⟨none, s.al2, next⟩
        let pended : Pass1State :=
          if s.al_cur1 then ⟨some cur, s.al2, next⟩ else ⟨s.al1, some cur, next⟩
        match
          (match prevSlot with
           | some p =>
             if cur.mate_flag ≠ '0' then
               if cur.mate_flag = '1' then
                 if p.mate_flag ≠ '2' then (.error () : Except Unit (Option (SamRec × SamRec)))
                 else .ok (some (cur, p))
               else
                 if p.mate_flag ≠ '1' then .error ()
                 else .ok (some (p, cur))
             else .ok none
           | none => .ok none) with
        | .error e => .error e
        | .ok mates =>
          match mates with
          | none =>
            if cur.mate_flag = '0' then
              if ¬cur.is_aligned then .ok (.count_unpaired_unaligned, unchanged)
              else if cur.typ = none ∨ cstr_head (cur.typ.getD []) = 'u' then
                .ok (.emit_unpaired cur, unchanged)
              else .ok (.type_mismatch, unchanged)
            else .ok (.pend, pended)
          | some (m1, m2) => classify_pair m1 m2 cleared

lemma set_typ_mate_flag (r : SamRec) (t : Option (List Char)) :
    SamRec.mate_flag { r with typ := t } = r.mate_flag := rfl

lemma set_typ_is_aligned (r : SamRec) (t : Option (List Char)) :
    SamRec.is_aligned { r with typ := t } = r.is_aligned := rfl

lemma set_typ_typ (r : SamRec) (t : Option (List Char)) :
    ({ r with typ := t } : SamRec).typ = t := rfl


lemma mate_flag_cases (r : SamRec) :
    r.mate_flag = '0' ∨ r.mate_flag = '1' ∨ r.mate_flag = '2' := by
  unfold SamRec.mate_flag
  split
  · simp
  · split <;> simp

lemma sam_pass1_step_pair_reduce (s : Pass1State) (r p : SamRec)
    (hsec : r.flag &&& 256 = 0) (hsupp : r.flag &&& 2048 = 0)
    (hcur : (if s.al_cur1 then s.al1 else s.al2) = none)
    (t : Option (List Char)) (ht : extract_typ r.qname = .ok t)
    (hprev : (if s.al_cur1 then s.al2 else s.al1) = some p)
    (m1 m2 : SamRec)
    (hmate : (r.mate_flag = '1' ∧ p.mate_flag = '2' ∧ m1 = { r with typ := t } ∧ m2 = p) ∨
             (r.mate_flag = '2' ∧ p.mate_flag = '1' ∧ m1 = p ∧ m2 = { r with typ := t })) :
    sam_pass1_step s r = classify_pair m1 m2
      (if s.al_cur1 then ⟨s.al1, none, !s.al_cur1⟩ else ⟨none, s.al2, !s.al_cur1⟩) := by
  rcases s with ⟨a1, a2, b⟩
  cases b <;> simp only [Bool.false_eq_true, if_false, if_true] at hcur hprev ⊢ <;>
    subst hcur <;> subst hprev <;>
    rcases hmate with ⟨hm1, hm2, he1, he2⟩ | ⟨hm1, hm2, he1, he2⟩ <;>
    subst he1 <;> subst he2 <;>
    simp [sam_pass1_step, hsec, hsupp, ht, set_typ_mate_flag, hm1, hm2]

lemma classify_pair_state (m1 m2 : SamRec) (c : Pass1State) (out : Pass1Outcome)
    (s2 : Pass1State) (h : classify_pair m1 m2 c = .ok (out, s2)) : s2 = c := by
  simp only [classify_pair] at h
  repeat' split at h
  all_goals simp_all

/-- C2: the stream state machine assigns each non-header, non-secondary,
non-supplementary record (or the mate pair it completes) exactly one
outcome.  Unpaired and unaligned: counted and discarded.  Unpaired and
aligned: unpaired lane, unless the simulated-type tag contradicts 'u'
(counted type mismatch).  Paired with no pending mate: pends.  Completed
pair, both unaligned: counted and discarded.  Exactly one aligned: bad-end
lane with the aligned mate as payload and the unaligned mate contributing
only its cheaply-inferred read length (tag must agree with 'b' + mate
role).  Both aligned: concordant lane if flag 0x2 is set, else discordant
lane (tag must agree with 'c' resp. 'd'). -/
theorem sam_pass1_step_classification (s : Pass1State) (r : SamRec)
    (hsec : r.flag &&& 256 = 0) (hsupp : r.flag &&& 2048 = 0)
    (hcur : (if s.al_cur1 then s.al1 else s.al2) = none)
    (t : Option (List Char)) (ht : extract_typ r.qname = .ok t) :
    (r.mate_flag = '0' → r.is_aligned = false →
      sam_pass1_step s r = .ok (.count_unpaired_unaligned, ⟨s.al1, s.al2, !s.al_cur1⟩)) ∧
    (r.mate_flag = '0' → r.is_aligned = true →
      (t = none ∨ cstr_head (t.getD []) = 'u') →
      sam_pass1_step s r =
        .ok (.emit_unpaired { r with typ := t }, ⟨s.al1, s.al2, !s.al_cur1⟩)) ∧
    (r.mate_flag = '0' → r.is_aligned = true →
      t ≠ none → cstr_head (t.getD []) ≠ 'u' →
      sam_pass1_step s r = .ok (.type_mismatch, ⟨s.al1, s.al2, !s.al_cur1⟩)) ∧
    (r.mate_flag ≠ '0' → (if s.al_cur1 then s.al2 else s.al1) = none →
      sam_pass1_step s r = .ok (.pend,
        if s.al_cur1 then ⟨some { r with typ := t }, s.al2, !s.al_cur1⟩
        else ⟨s.al1, some { r with typ := t }, !s.al_cur1⟩)) ∧
    (∀ p m1 m2, (if s.al_cur1 then s.al2 else s.al1) = some p →
      ((r.mate_flag = '1' ∧ p.mate_flag = '2' ∧ m1 = { r with typ := t } ∧ m2 = p) ∨
       (r.mate_flag = '2' ∧ p.mate_flag = '1' ∧ m1 = p ∧ m2 = { r with typ := t })) →
      (m1.is_aligned = false → m2.is_aligned = false →
        sam_pass1_step s r = .ok (.count_pair_unaligned,
          if s.al_cur1 then ⟨s.al1, none, !s.al_cur1⟩ else ⟨none, s.al2, !s.al_cur1⟩)) ∧
      (∀ alm other,
        ((m1.is_aligned = true ∧ m2.is_aligned = false ∧ alm = m1 ∧ other = m2) ∨
         (m1.is_aligned = false ∧ m2.is_aligned = true ∧ alm = m2 ∧ other = m1)) →
        ((alm.typ = none ∨
            (cstr_head (alm.typ.getD []) = 'b' ∧
              cstr_head (alm.typ.getD []).tail = alm.mate_flag)) →
          ∀ n, infer_read_length other.rest_of_line = .ok n →
          sam_pass1_step s r = .ok (.emit_bad_end alm n,
            if s.al_cur1 then ⟨s.al1, none, !s.al_cur1⟩ else ⟨none, s.al2, !s.al_cur1⟩)) ∧
        (alm.typ ≠ none →
          ¬(cstr_head (alm.typ.getD []) = 'b' ∧
              cstr_head (alm.typ.getD []).tail = alm.mate_flag) →
          sam_pass1_step s r = .ok (.type_mismatch,
            if s.al_cur1 then ⟨s.al1, none, !s.al_cur1⟩ else ⟨none, s.al2, !s.al_cur1⟩))) ∧
      (m1.is_aligned = true → m2.is_aligned = true →
        m1.is_concordant = m2.is_concordant →
        (m1.is_concordant = true →
          ((m1.typ = none ∨ cstr_head (m1.typ.getD []) = 'c') →
            sam_pass1_step s r = .ok (.emit_concordant m1 m2,
              if s.al_cur1 then ⟨s.al1, none, !s.al_cur1⟩ else ⟨none, s.al2, !s.al_cur1⟩)) ∧
          (m1.typ ≠ none → cstr_head (m1.typ.getD []) ≠ 'c' →
            sam_pass1_step s r = .ok (.type_mismatch,
              if s.al_cur1 then ⟨s.al1, none, !s.al_cur1⟩ else ⟨none, s.al2, !s.al_cur1⟩))) ∧
        (m1.is_concordant = false →
          ((m1.typ = none ∨ cstr_head (m1.typ.getD []) = 'd') →
            sam_pass1_step s r = .ok (.emit_discordant m1 m2,
              if s.al_cur1 then ⟨s.al1, none, !s.al_cur1⟩ else ⟨none, s.al2, !s.al_cur1⟩)) ∧
          (m1.typ ≠ none → cstr_head (m1.typ.getD []) ≠ 'd' →
            sam_pass1_step s r = .ok (.type_mismatch,
              if s.al_cur1 then ⟨s.al1, none, !s.al_cur1⟩ else ⟨none, s.al2, !s.al_cur1⟩))))) := by
  refine ⟨?_, ?_, ?_, ?_, ?_⟩
  · intro hm ha
    rcases s with ⟨a1, a2, b⟩
    cases b <;> simp only [Bool.false_eq_true, if_false, if_true] at hcur ⊢ <;> subst hcur <;>
      [rcases a1 with _ | q; rcases a2 with _ | q] <;>
      simp [sam_pass1_step, hsec, hsupp, ht, set_typ_mate_flag, set_typ_is_aligned, hm, ha]
  · intro hm ha hu
    rcases s with ⟨a1, a2, b⟩
    cases b <;> simp only [Bool.false_eq_true, if_false, if_true] at hcur ⊢ <;> subst hcur <;>
      [rcases a1 with _ | q; rcases a2 with _ | q] <;> rcases hu with hu | hu <;>
      simp [sam_pass1_step, hsec, hsupp, ht, set_typ_mate_flag, set_typ_is_aligned,
        set_typ_typ, hm, ha, hu]
  · intro hm ha hu1 hu2
    rcases s with ⟨a1, a2, b⟩
    cases b <;> simp only [Bool.false_eq_true, if_false, if_true] at hcur ⊢ <;> subst hcur <;>
      [rcases a1 with _ | q; rcases a2 with _ | q] <;>
      simp [sam_pass1_step, hsec, hsupp, ht, set_typ_mate_flag, set_typ_is_aligned,
        set_typ_typ, hm, ha, hu1, hu2]
  · intro hm hprev
    rcases s with ⟨a1, a2, b⟩
    cases b <;> simp only [Bool.false_eq_true, if_false, if_true] at hcur hprev ⊢ <;>
      subst hcur <;> subst hprev <;>
      simp [sam_pass1_step, hsec, hsupp, ht, set_typ_mate_flag, hm]
  · intro p m1 m2 hprev hmate
    have hred := sam_pass1_step_pair_reduce s r p hsec hsupp hcur t ht hprev m1 m2 hmate
    refine ⟨?_, ?_, ?_⟩
    · intro ha1 ha2
      rw [hred]
      simp [classify_pair, ha1, ha2]
    · intro alm other halm
      rcases halm with ⟨ha1, ha2, hb1, hb2⟩ | ⟨ha1, ha2, hb1, hb2⟩ <;>
        subst hb1 <;> subst hb2 <;> constructor
      · intro htag n hinfer
        rw [hred]
        rcases htag with htag | ⟨htb, htm⟩
        · simp [classify_pair, ha1, ha2, hinfer, htag]
        · simp [classify_pair, ha1, ha2, hinfer, htb, htm]
      · intro htag1 htag2
        rw [hred]
        simp [classify_pair, ha1, ha2, htag1, htag2]
      · intro htag n hinfer
        rw [hred]
        rcases htag with htag | ⟨htb, htm⟩
        · simp [classify_pair, ha1, ha2, hinfer, htag]
        · simp [classify_pair, ha1, ha2, hinfer, htb, htm]
      · intro htag1 htag2
        rw [hred]
        simp [classify_pair, ha1, ha2, htag1, htag2]
    · intro ha1 ha2 hcc
      refine ⟨?_, ?_⟩ <;> intro hco <;> constructor
      · intro htag
        rw [hred]
        rcases htag with htag | htag <;>
          simp [classify_pair, ha1, ha2, ← hcc, hco, htag]
      · intro htag1 htag2
        rw [hred]
        simp [classify_pair, ha1, ha2, ← hcc, hco, htag1, htag2]
      · intro htag
        rw [hred]
        rcases htag with htag | htag <;>
          simp [classify_pair, ha1, ha2, ← hcc, hco, htag]
      · intro htag1 htag2
        rw [hred]
        simp [classify_pair, ha1, ha2, ← hcc, hco, htag1, htag2]

/-- C7: when a pending unmatched paired-end record is followed by another
primary paired-end record claiming the same mate role, the step fails
fatally (mate-1 after pending mate-1 hits the explicit ordering check,
mate-2 after pending mate-2 hits `assert(al_prev.mate_flag() == '1')`); and
every successful step leaves at most one record pending. -/
theorem pairing_order_violation (s : Pass1State) (r p : SamRec)
    (hsec : r.flag &&& 256 = 0) (hsupp : r.flag &&& 2048 = 0)
    (hcur : (if s.al_cur1 then s.al1 else s.al2) = none)
    (hprev : (if s.al_cur1 then s.al2 else s.al1) = some p) :
    (((r.mate_flag = '1' ∧ p.mate_flag ≠ '2') ∨ (r.mate_flag = '2' ∧ p.mate_flag ≠ '1')) →
      sam_pass1_step s r = .error ()) ∧
    (∀ out s2, sam_pass1_step s r = .ok (out, s2) → s2.al1 = none ∨ s2.al2 = none) := by
  rcases s with ⟨a1, a2, b⟩
  constructor
  · intro hviol
    cases b <;> simp only [Bool.false_eq_true, if_false, if_true] at hcur hprev ⊢ <;>
      subst hcur <;> subst hprev <;>
      rcases hq : extract_typ r.qname with e | tt <;>
      rcases hviol with ⟨h1, h2⟩ | ⟨h1, h2⟩ <;>
      simp [sam_pass1_step, hsec, hsupp, hq, set_typ_mate_flag, h1, h2]
  · intro out s2 h
    cases b
    case false =>
      simp only [Bool.false_eq_true, if_false] at hcur hprev
      subst hcur; subst hprev
      rcases hq : extract_typ r.qname with e | tt
      · simp [sam_pass1_step, hsec, hsupp, hq] at h
      · rcases mate_flag_cases r with hm | hm | hm
        · simp [sam_pass1_step, hsec, hsupp, hq, set_typ_mate_flag, set_typ_is_aligned,
            set_typ_typ, hm] at h
          repeat' split at h
          all_goals (simp only [Except.ok.injEq, Prod.mk.injEq] at h; rw [← h.2]; simp)
        · by_cases hp : p.mate_flag = '2'
          · simp [sam_pass1_step, hsec, hsupp, hq, set_typ_mate_flag, hm, hp] at h
            have h2 := classify_pair_state _ _ _ _ _ h
            subst h2
            simp
          · simp [sam_pass1_step, hsec, hsupp, hq, set_typ_mate_flag, hm, hp] at h
        · by_cases hp : p.mate_flag = '1'
          · simp [sam_pass1_step, hsec, hsupp, hq, set_typ_mate_flag, hm, hp] at h
            have h2 := classify_pair_state _ _ _ _ _ h
            subst h2
            simp
          · simp [sam_pass1_step, hsec, hsupp, hq, set_typ_mate_flag, hm, hp] at h
    case true =>
      simp only [if_true] at hcur hprev
      subst hcur; subst hprev
      rcases hq : extract_typ r.qname with e | tt
      · simp [sam_pass1_step, hsec, hsupp, hq] at h
      · rcases mate_flag_cases r with hm | hm | hm
        · simp [sam_pass1_step, hsec, hsupp, hq, set_typ_mate_flag, set_typ_is_aligned,
            set_typ_typ, hm] at h
          repeat' split at h
          all_goals (simp only [Except.ok.injEq, Prod.mk.injEq] at h; rw [← h.2]; simp)
        · by_cases hp : p.mate_flag = '2'
          · simp [sam_pass1_step, hsec, hsupp, hq, set_typ_mate_flag, hm, hp] at h
            have h2 := classify_pair_state _ _ _ _ _ h
            subst h2
            simp
          · simp [sam_pass1_step, hsec, hsupp, hq, set_typ_mate_flag, hm, hp] at h
        · by_cases hp : p.mate_flag = '1'
          · simp [sam_pass1_step, hsec, hsupp, hq, set_typ_mate_flag, hm, hp] at h
            have h2 := classify_pair_state _ _ _ _ _ h
            subst h2
            simp
          · simp [sam_pass1_step, hsec, hsupp, hq, set_typ_mate_flag, hm, hp] at h

/-- Witness for C2 at a concrete concordant pair: mate 2 (flag 0x83|0x2)
pending, mate 1 (flag 0x43) arriving, neither name simulated. -/
theorem sam_pass1_step_classification_witness :
    sam_pass1_step ⟨none, some ⟨['b'], 131, [], 1, none⟩, true⟩ ⟨['a'], 67, [], 2, none⟩ =
      .ok (.emit_concordant ⟨['a'], 67, [], 2, none⟩ ⟨['b'], 131, [], 1, none⟩,
        ⟨none, none, false⟩) := by
  have h := ((sam_pass1_step_classification ⟨none, some ⟨['b'], 131, [], 1, none⟩, true⟩
      ⟨['a'], 67, [], 2, none⟩ (by decide) (by decide) (by decide) none
      (by decide)).2.2.2.2 ⟨['b'], 131, [], 1, none⟩ ⟨['a'], 67, [], 2, none⟩
      ⟨['b'], 131, [], 1, none⟩ rfl
      (Or.inl ⟨by decide, by decide, rfl, rfl⟩)).2.2 (by decide) (by decide) (by decide)
  exact (h.1 (by decide)).1 (Or.inl rfl)

/-- Witness for C7 at a concrete stream: a pending mate-1 record followed by
another mate-1 record. -/
theorem pairing_order_violation_witness :
    sam_pass1_step ⟨none, some ⟨['b'], 65, [], 1, none⟩, true⟩ ⟨['a'], 65, [], 2, none⟩ =
      .error () :=
  (pairing_order_violation ⟨none, some ⟨['b'], 65, [], 1, none⟩, true⟩
    ⟨['a'], 65, [], 2, none⟩ ⟨['b'], 65, [], 1, none⟩ (by decide) (by decide) (by decide)
    rfl).1 (Or.inl ⟨by decide, by decide⟩)

/-- `Alignment::mate_flag` as a function of the flag word (used by
`set_correctness`). -/
def mate_flag_of (flag : Nat) : Char :=
  if flag &&& 64 ≠ 0 then '1' else if flag &&& 128 ≠ 0 then '2' else '0'

/-- Scan a run of decimal digits into a `size_t` accumulator
(`refoff *= 10; refoff += ...` wraps modulo 2^64), returning the value and
the remaining characters (the cursor stops on the first non-digit, which in
C is read but not consumed). -/
def scan_u64 (acc : Nat) : List Char → Nat × List Char
  | [] => (acc, [])
  | c :: tl =>
    if c.isDigit then scan_u64 ((acc * 10 + (c.toNat - 48)) % 2 ^ 64) tl
    else (acc, c :: tl)

/-- Scan a run of decimal digits into an `int` accumulator (`score1 *= 10;
score1 += ...`); no claim exercises values near `int` overflow, so the
accumulator is a plain natural number. -/
def scan_int_digits (acc : Nat) : List Char → Nat × List Char
  | [] => (acc, [])
  | c :: tl =>
    if c.isDigit then scan_int_digits (acc * 10 + (c.toNat - 48)) tl
    else (acc, c :: tl)

/-- Two's-complement `size_t` subtraction. -/
def u64_sub (a b : Nat) : Nat := (a % 2 ^ 64 + 2 ^ 64 - b % 2 ^ 64) % 2 ^ 64

/-- Conversion of a `size_t` value to `int` (truncate to 32 bits, two's
complement, as gcc does). -/
def c_int_of_u64 (u : Nat) : Int :=
  if u % 2 ^ 32 < 2 ^ 31 then ((u % 2 ^ 32 : Nat) : Int)
  else ((u % 2 ^ 32 : Nat) : Int) - 2 ^ 32

/-- The expression `abs((int)(a - b))` on `size_t` operands, as
`set_correctness` compares reported and true positions. -/
def c_absdiff (a b : Nat) : Int := |c_int_of_u64 (u64_sub a b)|

/-- C `isspace` in the default locale. -/
def c_isspace (c : Char) : Bool :=
  c = ' ' ∨ c = '\t' ∨ c = '\n' ∨ c = Char.ofNat 11 ∨ c = Char.ofNat 12 ∨ c = '\r'

/-- The mate-2 half of the qtip-name parse in `Alignment::set_correctness`
(lines 584-631), entered with `correct == 0`: re-check the reference name,
the strand, the mate-2 true offset against `wiggle`, skip the mate-2 score,
and require a final `b`/`c`/`d` type letter (an `assert`); any failed field
comparison returns incorrect (0). -/
def sim_correct_mate2 (cur0 rname : List Char) (pos : Nat) (fw : Bool) (wiggle : Int) :
    Except Unit Int :=
  if ¬rname.isPrefixOf cur0 then .ok 0
  else
    let cur1 := cur0.drop rname.length
    if cstr_head cur1 ≠ sim_sep then .ok 0
    else
      let cur2 := cur1.drop 1
      if cstr_head cur2 ≠ (if fw then '+' else '-') then .ok 0
      else
        let cur3 := cur2.drop 1
        if cstr_head cur3 ≠ sim_sep then .ok 0
        else
          let ro := scan_u64 0 (cur3.drop 1)
          if c_absdiff ro.1 (u64_sub pos 1) ≥ wiggle then .ok 0
          else
            if cstr_head ro.2 ≠ sim_sep then .ok 0
            else
              let cur4 := ro.2.drop 1
              let cur5 := if cstr_head cur4 = '-' then cur4.drop 1 else cur4
              let sc := scan_int_digits 0 cur5
              if cstr_head sc.2 ≠ sim_sep then .ok 0
              else
                let cur6 := sc.2.drop 1
                if cstr_head cur6 = 'b' ∨ cstr_head cur6 = 'c' ∨ cstr_head cur6 = 'd' then
                  .ok 1
                else .error ()

/-- The tail of the qtip-name parse from the score field onward (lines
558-583): skip the signed score, require a separator, then accept an
unpaired (`u`) marker or a correct mate-1, `assert(mate_flag() != '0')`,
and otherwise parse the mate-2 block. -/
def sim_correct_score_on (cur5 rname : List Char) (pos : Nat) (flag : Nat) (wiggle : Int) :
    Except Unit Int :=
  let cur6 := if cstr_head cur5 = '-' then cur5.drop 1 else cur5
  let sc := scan_int_digits 0 cur6
  if cstr_head sc.2 ≠ sim_sep then .ok 0
  else
    let cur7 := sc.2.drop 1
    if cstr_head cur7 = 'u' ∧
        (cstr_head cur7.tail = nulChar ∨ c_isspace (cstr_head cur7.tail)) then .ok 1
    else if mate_flag_of flag = '0' then .error ()
    else if ¬(mate_flag_of flag = '2') then .ok 1
    else sim_correct_mate2 cur7 rname pos (flag &&& 16 = 0) wiggle

/-- The qtip-simulated-name branch of `Alignment::set_correctness` (lines
523-583), entered with the cursor just past `sim_startswith` and
`correct == 0`: `assert(*qname_cur == sim_sep)`, then (for mate != 2) check
reference name, strand and offset-within-`wiggle`; any failed field
comparison returns incorrect (0), never unknown. -/
def sim_correct (cur0 rname : List Char) (pos : Nat) (flag : Nat) (wiggle : Int) :
    Except Unit Int :=
  if cstr_head cur0 ≠ sim_sep then .error ()
  else
    let cur1 := cur0.drop 1
    let m2 := mate_flag_of flag = '2'
    if ¬m2 ∧ ¬rname.isPrefixOf cur1 then .ok 0
    else
      let cur2 := cur1.drop rname.length
      if cstr_head cur2 ≠ sim_sep then .ok 0
      else
        let cur3 := cur2.drop 1
        if ¬m2 ∧ cstr_head cur3 ≠ (if flag &&& 16 = 0 then '+' else '-') then .ok 0
        else
          let cur4 := cur3.drop 1
          if cstr_head cur4 ≠ sim_sep then .ok 0
          else
            let ro := scan_u64 0 (cur4.drop 1)
            if ¬m2 ∧ c_absdiff ro.1 (u64_sub pos 1) ≥ wiggle then .ok 0
            else if cstr_head ro.2 ≠ sim_sep then .ok 0
            else sim_correct_score_on (ro.2.drop 1) rname pos flag wiggle

/-- The `while(ncolon > 0) { if(*qname_cur++ == ':') ncolon--; }` skip of the
wgsim-style parse; running past the terminator is out of model. -/
def skip_colons : Nat → List Char → Except Unit (List Char)
  | 0, l => .ok l
  | _ + 1, [] => .error ()
  | n + 1, c :: tl => if c = ':' then skip_colons n tl else skip_colons (n + 1) tl

/-- The `while(isdigit(*qname_cur++));` skip: consumes a digit run plus the
following character; consuming the terminator (so that the next read is past
the buffer) is out of model. -/
def skip_digits_plus_one : List Char → Except Unit (List Char)
  | [] => .error ()
  | c :: tl => if c.isDigit then skip_digits_plus_one tl else .ok tl

/-- The recognition scan of the wgsim-style branch (lines 643-650): count
underscores, and colons seen only once at least 3 underscores have already
passed. -/
def count_und_colon (qname : List Char) : Nat × Nat :=
  qname.foldl
    (fun p c =>
      if c = '_' then (p.1 + 1, p.2)
      else if c = ':' ∧ p.1 ≥ 3 then (p.1, p.2 + 1)
      else p)
    (0, 0)

/-- The tail of the wgsim-style parse from the mate lengths onward (lines
683-711): parse `len1`, `len2` and the orientation-flip digit (an `assert`
requires '0' or '1'), then label by position-within-`wiggle` against the
fragment start (left end of the fragment) or `frag_end - len + 1` (right
end). -/
def wgsim_lens (cur2 : List Char) (fs fe : Nat) (pos : Nat) (flag : Nat) (wiggle : Int) :
    Except Unit Int :=
  let l1 := scan_int_digits 0 cur2
  if cstr_head l1.2 ≠ '_' then .ok 0
  else
    let l2 := scan_int_digits 0 (l1.2.drop 1)
    if cstr_head l2.2 ≠ '_' then .ok 0
    else
      let cur3 := l2.2.drop 1
      if ¬(cstr_head cur3 = '0' ∨ cstr_head cur3 = '1') then .error ()
      else
        let flip := cstr_head cur3 = '1'
        let mate1 := mate_flag_of flag ≠ '2'
        let len := if mate1 then l1.1 else l2.1
        if (¬flip) ↔ mate1 then .ok (if c_absdiff pos fs < wiggle then 1 else 0)
        else .ok (if c_absdiff pos ((u64_sub fe len + 1) % 2 ^ 64) < wiggle then 1 else 0)

/-- The wgsim-style branch of `Alignment::set_correctness` (lines 651-711),
entered once the name shape is recognized, with `correct = 0`: parse
reference id, fragment start and end, skip the colon-separated simulation
parameters, then hand over to the length/flip tail. -/
def wgsim_correct (qname rname : List Char) (pos : Nat) (flag : Nat) (wiggle : Int) :
    Except Unit Int :=
  if ¬rname.isPrefixOf qname then .ok 0
  else
    let cur0 := qname.drop rname.length
    if cstr_head cur0 ≠ '_' then .ok 0
    else
      let fs := scan_u64 0 (cur0.drop 1)
      if cstr_head fs.2 ≠ '_' then .ok 0
      else
        let fe := scan_u64 0 (fs.2.drop 1)
        if cstr_head fe.2 ≠ '_' then .ok 0
        else
          match skip_colons 4 (fe.2.drop 1) with
          | .error e => .error e
          | .ok cur1 =>
            match skip_digits_plus_one cur1 with
            | .error e => .error e
            | .ok cur2 => wgsim_lens cur2 fs.1 fe.1 pos flag wiggle

/-- `Alignment::set_correctness`: label a read by its synthetic name.  A
name starting with `sim_startswith` takes the qtip branch; otherwise a name
with at least 8 underscores and exactly 4 counted colons takes the
wgsim-style branch; otherwise the label stays unknown (-1). -/
def set_correctness (qname rname : List Char) (pos : Nat) (flag : Nat) (wiggle : Int) :
    Except Unit Int :=
  if sim_startswith.isPrefixOf qname then
    sim_correct (qname.drop sim_startswith.length) rname pos flag wiggle
  else
    let nc := count_und_colon qname
    if nc.1 ≥ 8 ∧ nc.2 = 4 then wgsim_correct qname rname pos flag wiggle
    else .ok (-1)

lemma sim_correct_mate2_ok (cur0 rname : List Char) (pos : Nat) (fw : Bool) (wiggle : Int)
    (c : Int) (h : sim_correct_mate2 cur0 rname pos fw wiggle = .ok c) : c = 0 ∨ c = 1 := by
  simp only [sim_correct_mate2] at h
  repeat' split at h
  all_goals first
    | (simp only [Except.ok.injEq] at h; omega)
    | exact absurd h (by simp)

lemma sim_correct_score_on_ok (cur5 rname : List Char) (pos : Nat) (flag : Nat)
    (wiggle : Int) (c : Int)
    (h : sim_correct_score_on cur5 rname pos flag wiggle = .ok c) : c = 0 ∨ c = 1 := by
  simp only [sim_correct_score_on] at h
  repeat' split at h
  all_goals first
    | (simp only [Except.ok.injEq] at h; omega)
    | exact sim_correct_mate2_ok _ _ _ _ _ _ h
    | exact absurd h (by simp)

lemma sim_correct_ok (cur0 rname : List Char) (pos : Nat) (flag : Nat) (wiggle : Int)
    (c : Int) (h : sim_correct cur0 rname pos flag wiggle = .ok c) : c = 0 ∨ c = 1 := by
  simp only [sim_correct] at h
  repeat' split at h
  all_goals first
    | (simp only [Except.ok.injEq] at h; omega)
    | exact sim_correct_score_on_ok _ _ _ _ _ _ h
    | exact absurd h (by simp)

lemma wgsim_lens_ok (cur2 : List Char) (fs fe pos : Nat) (flag : Nat) (wiggle : Int)
    (c : Int) (h : wgsim_lens cur2 fs fe pos flag wiggle = .ok c) : c = 0 ∨ c = 1 := by
  simp only [wgsim_lens] at h
  repeat' split at h
  all_goals first
    | (simp only [Except.ok.injEq] at h; omega)
    | exact absurd h (by simp)

lemma wgsim_correct_ok (qname rname : List Char) (pos : Nat) (flag : Nat) (wiggle : Int)
    (c : Int) (h : wgsim_correct qname rname pos flag wiggle = .ok c) : c = 0 ∨ c = 1 := by
  simp only [wgsim_correct] at h
  repeat' split at h
  all_goals first
    | (simp only [Except.ok.injEq] at h; omega)
    | exact wgsim_lens_ok _ _ _ _ _ _ _ h
    | exact absurd h (by simp)

/-- C10: the label is left unknown (-1) exactly when the read name matches
neither synthetic-name pattern; whenever either pattern is recognized, every
successful parse labels the read correct (1) or incorrect (0) — a field
comparison failing mid-parse yields 0, never -1. -/
theorem unknown_iff_unrecognized (qname rname : List Char) (pos flag : Nat) (wiggle : Int) :
    set_correctness qname rname pos flag wiggle = .ok (-1) ↔
      (¬sim_startswith.isPrefixOf qname ∧
        ¬((count_und_colon qname).1 ≥ 8 ∧ (count_und_colon qname).2 = 4)) := by
  constructor
  · intro h
    simp only [set_correctness] at h
    by_cases hp : sim_startswith.isPrefixOf qname
    · rw [if_pos hp] at h
      rcases sim_correct_ok _ _ _ _ _ _ h with h0 | h0 <;> exact absurd h0 (by decide)
    · rw [if_neg hp] at h
      by_cases hw : ((count_und_colon qname).1 ≥ 8 ∧ (count_und_colon qname).2 = 4)
      · rw [if_pos hw] at h
        rcases wgsim_correct_ok _ _ _ _ _ _ h with h0 | h0 <;> exact absurd h0 (by decide)
      · exact ⟨hp, hw⟩
  · rintro ⟨hp, hw⟩
    simp only [set_correctness]
    rw [if_neg hp, if_neg hw]

/-- Witness for C10: a name matching neither pattern is labelled unknown. -/
theorem unknown_iff_unrecognized_witness :
    set_correctness ['r', '1'] ['c'] 100 0 30 = .ok (-1) :=
  (unknown_iff_unrecognized ['r', '1'] ['c'] 100 0 30).mpr ⟨by decide, by decide⟩

lemma scan_u64_append (ds : List Char) (acc : Nat) (c : Char) (rest : List Char)
    (hds : ∀ x ∈ ds, x.isDigit = true) (hc : ¬c.isDigit = true) :
    scan_u64 acc (ds ++ c :: rest) = ((scan_u64 acc ds).1, c :: rest) := by
  induction ds generalizing acc with
  | nil => simp [scan_u64, hc]
  | cons d tl ih =>
    have hd : d.isDigit = true := hds d (List.mem_cons_self _ _)
    rw [List.cons_append, scan_u64]
    simp only [hd, if_true]
    rw [ih _ (fun x hx => hds x (List.mem_cons_of_mem _ hx))]
    conv_rhs => rw [scan_u64]
    simp [hd]

lemma scan_int_digits_append (ds : List Char) (acc : Nat) (c : Char) (rest : List Char)
    (hds : ∀ x ∈ ds, x.isDigit = true) (hc : ¬c.isDigit = true) :
    scan_int_digits acc (ds ++ c :: rest) = ((scan_int_digits acc ds).1, c :: rest) := by
  induction ds generalizing acc with
  | nil => simp [scan_int_digits, hc]
  | cons d tl ih =>
    have hd : d.isDigit = true := hds d (List.mem_cons_self _ _)
    rw [List.cons_append, scan_int_digits]
    simp only [hd, if_true]
    rw [ih _ (fun x hx => hds x (List.mem_cons_of_mem _ hx))]
    conv_rhs => rw [scan_int_digits]
    simp [hd]

lemma u64_sub_one (pos : Nat) (h1 : 1 ≤ pos) (h2 : pos < 2 ^ 64) :
    u64_sub pos 1 = pos - 1 := by
  unfold u64_sub
  omega

lemma c_absdiff_eq (a b : Nat) (ha : a < 2 ^ 31) (hb : b < 2 ^ 31) :
    c_absdiff a b = |(a : Int) - (b : Int)| := by
  unfold c_absdiff c_int_of_u64 u64_sub
  rcases le_or_lt b a with hba | hab
  · have h1 : (a % 2 ^ 64 + 2 ^ 64 - b % 2 ^ 64) % 2 ^ 64 = a - b := by omega
    have h2 : (a - b) % 2 ^ 32 = a - b := by omega
    rw [h1, h2, if_pos (by omega), Nat.cast_sub hba]
  · have h1 : (a % 2 ^ 64 + 2 ^ 64 - b % 2 ^ 64) % 2 ^ 64 = 2 ^ 64 - (b - a) := by omega
    have h2 : (2 ^ 64 - (b - a)) % 2 ^ 32 = 2 ^ 32 - (b - a) := by omega
    rw [h1, h2, if_neg (by omega)]
    have h3 : ((2 ^ 32 - (b - a) : Nat) : Int) - 2 ^ 32 = -(((b - a : Nat)) : Int) := by
      rw [Nat.cast_sub (by omega)]
      push_cast
      ring
    rw [h3, abs_neg, Nat.cast_sub (le_of_lt hab)]
    rw [abs_sub_comm ((b : Int)) ((a : Int))]

/-- A canonical qtip-simulated unpaired read name: prefix, reference name,
strand character matching the flag, true-offset digits, score 0 and the
`u` marker, separated by `sim_sep`. -/
def qtip_unp_name (rname : List Char) (flag : Nat) (ds : List Char) : List Char :=
  sim_startswith ++ sim_sep :: (rname ++ sim_sep ::
    (if flag &&& 16 = 0 then '+' else '-') :: sim_sep ::
    (ds ++ sim_sep :: '0' :: sim_sep :: ['u']))

/-- A canonical wgsim-style read name: reference id, fragment start and end
digits, `0:0:0_0:0:0` simulation parameters, the two mate-length digit
fields, flip digit '0', and read id `1/1`. -/
def wgsim_name (rname fs fe l1 l2 : List Char) : List Char :=
  rname ++ '_' :: (fs ++ '_' :: (fe ++ '_' ::
    ('0' :: ':' :: '0' :: ':' :: '0' :: '_' :: '0' :: ':' :: '0' :: ':' :: '0' :: '_' ::
      (l1 ++ '_' :: (l2 ++ '_' :: '0' :: '_' :: ['1', '/', '1'])))))

/-- C8: the correctness oracle is a deterministic function of name, strand,
position and `wiggle`, and on both synthetic-name schemes the label is
correct (1) exactly when the absolute difference between the reported and
true positions is strictly below `wiggle` — at `|reported - true| = wiggle`
the label is incorrect (0), not correct.  Stated for a canonical
qtip-simulated unpaired name (true offset = the digit field, reported
0-based position `pos - 1`) and for a canonical wgsim-style left-end name
(true position = fragment start); the numeric bounds keep the C `size_t`/
`int` conversions wrap-free. -/
theorem correctness_wiggle_boundary :
    (∀ (rname ds : List Char) (pos flag : Nat) (wiggle : Int),
      (∀ x ∈ ds, x.isDigit = true) →
      (scan_u64 0 ds).1 < 2 ^ 31 → 1 ≤ pos → pos < 2 ^ 31 →
      mate_flag_of flag ≠ '2' →
      set_correctness (qtip_unp_name rname flag ds) rname pos flag wiggle =
        .ok (if |((scan_u64 0 ds).1 : Int) - ((pos : Int) - 1)| < wiggle then 1 else 0)) ∧
    (∀ (rname fs fe l1 l2 : List Char) (pos flag : Nat) (wiggle : Int),
      (∀ x ∈ fs, x.isDigit = true) → (∀ x ∈ fe, x.isDigit = true) →
      (∀ x ∈ l1, x.isDigit = true) → (∀ x ∈ l2, x.isDigit = true) →
      (scan_u64 0 fs).1 < 2 ^ 31 → pos < 2 ^ 31 →
      mate_flag_of flag ≠ '2' →
      ¬sim_startswith.isPrefixOf (wgsim_name rname fs fe l1 l2) →
      (count_und_colon (wgsim_name rname fs fe l1 l2)).1 ≥ 8 →
      (count_und_colon (wgsim_name rname fs fe l1 l2)).2 = 4 →
      set_correctness (wgsim_name rname fs fe l1 l2) rname pos flag wiggle =
        .ok (if |(pos : Int) - ((scan_u64 0 fs).1 : Int)| < wiggle then 1 else 0)) := by
  constructor
  · intro rname ds pos flag wiggle hds hdsb hpos1 hposb hm2
    have hscan := scan_u64_append ds 0 sim_sep ('0' :: sim_sep :: ['u']) hds (by decide)
    have hsub1 : u64_sub pos 1 = pos - 1 := u64_sub_one pos hpos1 (by omega)
    have habs : c_absdiff (scan_u64 0 ds).1 (u64_sub pos 1) =
        |((scan_u64 0 ds).1 : Int) - ((pos : Int) - 1)| := by
      rw [hsub1, c_absdiff_eq _ _ hdsb (by omega), Nat.cast_sub hpos1]
      norm_num
    have hsc : scan_int_digits 0 ('0' :: sim_sep :: ['u']) = (0, sim_sep :: ['u']) := by
      decide
    by_cases hcmp : |((scan_u64 0 ds).1 : Int) - ((pos : Int) - 1)| < wiggle
    · simp only [set_correctness, qtip_unp_name]
      rw [if_pos (by simp)]
      rw [List.drop_left]
      simp only [sim_correct]
      simp [cstr_head, hm2, List.drop_left, hscan, habs, not_le.mpr hcmp, hcmp,
        sim_correct_score_on, hsc]
    · simp only [set_correctness, qtip_unp_name]
      rw [if_pos (by simp)]
      rw [List.drop_left]
      simp only [sim_correct]
      simp [cstr_head, hm2, List.drop_left, hscan, habs, not_lt.mp hcmp, hcmp,
        sim_correct_score_on, hsc]
  · intro rname fs fe l1 l2 pos flag wiggle hfs hfe hl1 hl2 hfsb hposb hm2 hnp hrec1 hrec2
    have hscan1 := scan_u64_append fs 0 '_'
      (fe ++ '_' :: ('0' :: ':' :: '0' :: ':' :: '0' :: '_' :: '0' :: ':' :: '0' :: ':' ::
        '0' :: '_' :: (l1 ++ '_' :: (l2 ++ '_' :: '0' :: '_' :: ['1', '/', '1']))))
      hfs (by decide)
    have hscan2 := scan_u64_append fe 0 '_'
      ('0' :: ':' :: '0' :: ':' :: '0' :: '_' :: '0' :: ':' :: '0' :: ':' :: '0' :: '_' ::
        (l1 ++ '_' :: (l2 ++ '_' :: '0' :: '_' :: ['1', '/', '1'])))
      hfe (by decide)
    have hskip : skip_colons 4
        ('0' :: ':' :: '0' :: ':' :: '0' :: '_' :: '0' :: ':' :: '0' :: ':' :: '0' :: '_' ::
          (l1 ++ '_' :: (l2 ++ '_' :: '0' :: '_' :: ['1', '/', '1']))) =
        .ok ('0' :: '_' :: (l1 ++ '_' :: (l2 ++ '_' :: '0' :: '_' :: ['1', '/', '1']))) := by
      simp [skip_colons]
    have hdig : skip_digits_plus_one
        ('0' :: '_' :: (l1 ++ '_' :: (l2 ++ '_' :: '0' :: '_' :: ['1', '/', '1']))) =
        .ok (l1 ++ '_' :: (l2 ++ '_' :: '0' :: '_' :: ['1', '/', '1'])) := by
      simp [skip_digits_plus_one, (by decide : ('0').isDigit = true),
        (by decide : ¬('_').isDigit = true)]
    have hscl1 := scan_int_digits_append l1 0 '_' (l2 ++ '_' :: '0' :: '_' :: ['1', '/', '1'])
      hl1 (by decide)
    have hscl2 := scan_int_digits_append l2 0 '_' ('0' :: '_' :: ['1', '/', '1'])
      hl2 (by decide)
    have habs : c_absdiff pos (scan_u64 0 fs).1 =
        |(pos : Int) - ((scan_u64 0 fs).1 : Int)| := c_absdiff_eq _ _ hposb hfsb
    simp only [set_correctness]
    rw [if_neg hnp, if_pos ⟨hrec1, hrec2⟩]
    simp only [wgsim_name] at *
    simp only [wgsim_correct]
    simp [cstr_head, List.drop_left, hscan1, hscan2, hskip, hdig, wgsim_lens,
      hscl1, hscl2, hm2, habs]

/-- Witness for C8 at the exact wiggle boundary: qtip name with true offset
10 reported at 1-based position 5 (distance 6) and wgsim-style name with
fragment start 10 reported at position 4 (distance 6), both with
`wiggle = 6`, labelled incorrect (0), not correct. -/
theorem correctness_wiggle_boundary_witness :
    set_correctness (qtip_unp_name ['c'] 0 ['1', '0']) ['c'] 5 0 6 = .ok 0 ∧
    set_correctness (wgsim_name ['c'] ['1', '0'] ['9', '0'] ['5'] ['5']) ['c'] 4 0 6 =
      .ok 0 := by
  constructor
  · have h := correctness_wiggle_boundary.1 ['c'] ['1', '0'] 5 0 6 (by decide) (by decide)
      (by decide) (by decide) (by decide)
    rw [h]
    decide
  · have h := correctness_wiggle_boundary.2 ['c'] ['1', '0'] ['9', '0'] ['5'] ['5'] 4 0 6
      (by decide) (by decide) (by decide) (by decide) (by decide) (by decide) (by decide)
      (by decide) (by decide) (by decide)
    rw [h]
    decide
